import Mathlib

/-!
Verification of the mgpu command-submission driver.

Shallow embedding, in Lean 4, of the parts of the mgpu kernel driver that the
specification's claims are about: the command ring (`mgpu_cmdq.c`), the job
scheduler (`mgpu_sched.c`), the fence engine (`mgpu_fence.c`), the health
monitor (`mgpu_health.c`), the reset engine (`mgpu_reset.c`) and the command
validator (user-API file).  Machine integers are modelled as `Nat` with
explicit reduction modulo `2^32` where 32-bit wrap-around matters; fallible
C functions return their `int` error code or an `Except`; memory-mapped
device state that a function reads (the ring head register, the scratch
read-back, the status register, jiffies) is passed in as an explicit
argument, since the device writes it asynchronously.
-/

namespace Mgpu

/-- The modulus of unsigned 32-bit arithmetic. -/
def U32_MOD : Nat := 4294967296

/-- C unsigned 32-bit subtraction `a - b`, which wraps modulo `2^32`.
Defined for arguments already reduced below `2^32`. -/
def u32sub (a b : Nat) : Nat := (a + (U32_MOD - b % U32_MOD)) % U32_MOD

theorem u32sub_eq_sub {a b : Nat} (hb : b ≤ a) (ha : a < U32_MOD) :
    u32sub a b = a - b := by
  unfold u32sub U32_MOD at *
  have hbm : b % 4294967296 = b := Nat.mod_eq_of_lt (lt_of_le_of_lt hb ha)
  rw [hbm]
  have h1 : a + (4294967296 - b) = (a - b) + 4294967296 := by omega
  rw [h1, Nat.add_mod_right]
  exact Nat.mod_eq_of_lt (by omega)

/-! Section: Command ring (`mgpu_cmdq.c`, src/unnamed/part_000)

`struct mgpu_ring`: the ring memory is a list of dwords, `tail` is the
host-private write index in dwords, `sizeBytes` the ring size in bytes.
The device-owned head index is read from the `CMD_HEAD` register on every
call that needs it, so it is an explicit argument of those functions. -/

/-- Struct `struct mgpu_ring` (the fields the embedded functions touch). -/
structure MgpuRing where
  sizeBytes : Nat
  queueId : Nat
  tail : Nat
  buf : List Nat
  submitted_cmds : Nat
deriving Repr, DecidableEq

def MGPU_RING_SIZE_MIN : Nat := 4096
def MGPU_RING_SIZE_MAX : Nat := 262144
def MGPU_MAX_QUEUES : Nat := 16

/-- Kernel `is_power_of_2`. -/
def is_power_of_2 (n : Nat) : Bool := n ≠ 0 && n &&& (n - 1) == 0

/-- Kernel `roundup_pow_of_two`: least power of two that is `≥ n` (for `n ≥ 1`). -/
def roundup_pow_of_two (n : Nat) : Nat := 2 ^ Nat.clog 2 n

/-- Function `mgpu_ring_create(mdev, size, queue_id)`: validates the size, rounds it to a
power of two, allocates and zeroes the ring memory, and programs the
`CMD_BASE/SIZE/HEAD/TAIL` registers for the queue (head and tail reset to 0).
`none` models the `NULL` returns (invalid size / allocation failure; the
modelled allocation never fails). -/
def mgpu_ring_create (size : Nat) (queue_id : Nat) : Option MgpuRing :=
  if size < MGPU_RING_SIZE_MIN ∨ size > MGPU_RING_SIZE_MAX then none
  else
    let size := if is_power_of_2 size then size else roundup_pow_of_two size
    some { sizeBytes := size, queueId := queue_id, tail := 0,
           buf := List.replicate (size / 4) 0, submitted_cmds := 0 }

/-- First definition of `mgpu_ring_space` in the source (part_000 lines
104-118): `head` is re-read from `CMD_HEAD`; for `head ≤ tail` it computes
`ring->size - (tail - head) - 1` — `ring->size` is the size in BYTES while
`tail` and `head` are dword indices. -/
def mgpu_ring_space (head : Nat) (ring : MgpuRing) : Nat :=
  if head ≤ ring.tail then
    u32sub (u32sub ring.sizeBytes (u32sub ring.tail head)) 1
  else
    u32sub (u32sub head ring.tail) 1

/-- Second definition of `mgpu_ring_space` in the same source file (part_000
lines 299-313, commented "Convert to dwords"): identical except that the
`head ≤ tail` branch uses `ring->size / 4`. -/
def mgpu_ring_space_dw (head : Nat) (ring : MgpuRing) : Nat :=
  if head ≤ ring.tail then
    u32sub (u32sub (ring.sizeBytes / 4) (u32sub ring.tail head)) 1
  else
    u32sub (u32sub head ring.tail) 1

/-- Loop body of `mgpu_ring_write`: store each dword at `tail` and advance
`tail = (tail + 1) & (ring_size_dw - 1)`. -/
def ringWriteGo (sizeDw : Nat) : List Nat → Nat → List Nat → List Nat × Nat
  | buf, tail, [] => (buf, tail)
  | buf, tail, d :: rest =>
    ringWriteGo sizeDw (buf.set tail d) ((tail + 1) &&& (sizeDw - 1)) rest

/-- Function `mgpu_ring_write(ring, data, dwords)`: copies the payload into the ring at
`tail`, wrapping with the power-of-two mask, then updates the host-private
tail (the `wmb()` has no effect in a sequential model). -/
def mgpu_ring_write (ring : MgpuRing) (data : List Nat) : MgpuRing :=
  let r := ringWriteGo (ring.sizeBytes / 4) ring.buf ring.tail data
  { ring with buf := r.1, tail := r.2 }

/-- Function `mgpu_ring_kick`: writes `tail` to `CMD_TAIL`, rings the queue's doorbell,
increments `submitted_cmds`.  The second component records the MMIO effect:
the tail value written and the queue whose doorbell was rung. -/
def mgpu_ring_kick (ring : MgpuRing) : MgpuRing × (Nat × Nat) :=
  ({ ring with submitted_cmds := ring.submitted_cmds + 1 },
   (ring.tail, ring.queueId))

/-- Function `mgpu_ring_wait_space(ring, needed)` with the device head unchanged across
the polls: the space value is the same at every iteration, so the loop either
succeeds at once or runs out its 1000 ms budget and returns `-ETIMEDOUT`. -/
def mgpu_ring_wait_space (head : Nat) (ring : MgpuRing) (needed : Nat) : Int :=
  if needed ≤ mgpu_ring_space_dw head ring then 0 else -110

/-- Struct `struct mgpu_submit` (the fields `mgpu_submit_commands` reads).  The user
command buffer is modelled as the list of dwords the `copy_from_user` call
obtains; an empty list models a `NULL` pointer. -/
structure MgpuSubmit where
  commands : List Nat
  cmd_size : Nat
  queue_id : Nat
  flags : Nat
  fence_addr : Nat
  fence_value : Nat
deriving Repr, DecidableEq

def MGPU_SUBMIT_FLAGS_FENCE : Nat := 1
def MGPU_SUBMIT_FLAGS_SYNC : Nat := 2

/-- The slice of `struct mgpu_device` that the command-queue code touches. -/
structure CmdqDevice where
  cmd_ring : Option MgpuRing
deriving Repr, DecidableEq

/-- Result of `mgpu_submit_commands`: the `int` return code, the device
afterwards (`mdev->cmd_ring` is mutated in place in C, so it reflects every
ring write that happened before an error return), and the queue id whose
doorbell was rung, if the submission reached `mgpu_ring_kick`. -/
structure SubmitResult where
  ret : Int
  dev : CmdqDevice
  doorbell : Option Nat
deriving Repr, DecidableEq

/-- The on-wire FENCE command `mgpu_submit_commands` appends when
`MGPU_SUBMIT_FLAGS_FENCE` is set: header `{opcode=4, size=3, flags=0}`
packed as `(flags<<16)|(size<<8)|opcode`, then `addr`, then `value`. -/
def fenceCmdDwords (addr value : Nat) : List Nat := [772, addr, value]

/-- Function `mgpu_submit_commands(mdev, args)` with the device head pinned at `head`
for the duration of the call.  Checks the arguments, reuses `mdev->cmd_ring`
(creating it for `args->queue_id` only if absent), waits for space, writes the
commands, optionally appends a FENCE command, kicks the ring, and for a SYNC
submission polls until `CMD_HEAD == CMD_TAIL`. -/
def mgpu_submit_commands (head : Nat) (dev : CmdqDevice) (args : MgpuSubmit) :
    SubmitResult :=
  if args.commands.isEmpty ∨ args.cmd_size = 0 then ⟨-22, dev, none⟩
  else if MGPU_MAX_QUEUES ≤ args.queue_id then ⟨-22, dev, none⟩
  else
    match dev.cmd_ring with
    | none =>
      match mgpu_ring_create MGPU_RING_SIZE_MIN args.queue_id with
      | none => ⟨-12, dev, none⟩
      | some ring => mgpuSubmitLocked head ring args
    | some ring => mgpuSubmitLocked head ring args
where
  /-- The part of `mgpu_submit_commands` that runs under `cmd_lock`, plus the
  optional synchronous wait; `mdev->cmd_ring` aliases `ring` from here on, so
  the device in the result carries the (possibly written) ring. -/
  mgpuSubmitLocked (head : Nat) (ring : MgpuRing)
      (args : MgpuSubmit) : SubmitResult :=
    let cmd_dwords := args.cmd_size / 4
    if mgpu_ring_wait_space head ring cmd_dwords ≠ 0 then
      ⟨-110, ⟨some ring⟩, none⟩
    else
      let ring := mgpu_ring_write ring (args.commands.take cmd_dwords)
      if args.flags &&& MGPU_SUBMIT_FLAGS_FENCE ≠ 0 then
        if mgpu_ring_wait_space head ring 3 ≠ 0 then ⟨-110, ⟨some ring⟩, none⟩
        else
          let ring := mgpu_ring_write ring
            (fenceCmdDwords args.fence_addr args.fence_value)
          mgpuSubmitKick head ring args
      else
        mgpuSubmitKick head ring args
  /-- Function `mgpu_ring_kick` plus the `MGPU_SUBMIT_FLAGS_SYNC` polling loop (with
  the static head, the poll succeeds iff `head` already equals the tail that
  was just written to `CMD_TAIL`; otherwise the 1 s budget expires). -/
  mgpuSubmitKick (head : Nat) (ring : MgpuRing) (args : MgpuSubmit) :
      SubmitResult :=
    let kicked := mgpu_ring_kick ring
    let ret : Int :=
      if args.flags &&& MGPU_SUBMIT_FLAGS_SYNC ≠ 0 then
        if head = kicked.2.1 then 0 else -110
      else 0
    ⟨ret, ⟨some kicked.1⟩, some kicked.2.2⟩

/-- Function `mgpu_cmdq_init(mdev)`: creates the default ring for queue 0. -/
def mgpu_cmdq_init : Option CmdqDevice :=
  (mgpu_ring_create MGPU_RING_SIZE_MIN 0).map (fun r => ⟨some r⟩)

/-- Iterated submission: `k` writes of a one-dword NOP command (`header = {opcode=0, size=1,
flags=0}`, packed to the dword `256`) written to the ring, as in the
fill-and-drain scenario of the specification. -/
def iterNopWrite : Nat → MgpuRing → MgpuRing
  | 0, r => r
  | k + 1, r => iterNopWrite k (mgpu_ring_write r [256])

/-! Section: Job scheduler (`mgpu_sched.c`)

Jobs, per-queue priority buckets, the ready predicate, submission to a queue
and the per-queue scheduler pass.  The hardware-submission step
(`mgpu_submit_commands`) can fail for reasons outside the queue state (ring
full, timeout); its return code is passed in as `ringRet`. -/

/-- Enum `enum mgpu_job_state`. -/
inductive JobState
  | pending
  | queued
  | running
  | completed
  | aborted
  | timeout
deriving Repr, DecidableEq

/-- Enum `enum mgpu_job_type`. -/
inductive JobType
  | draw
  | compute
  | dma
  | fence
deriving Repr, DecidableEq

/-- Struct `struct mgpu_job` (the fields the embedded scheduler functions touch;
`dep_count` is the unsatisfied-dependency counter). -/
structure MgpuJob where
  job_id : Nat
  type : JobType
  priority : Nat
  state : JobState
  commands : List Nat
  cmd_size : Nat
  queue_id : Nat
  fence_addr : Nat
  fence_value : Nat
  timeout_ms : Nat
  dep_count : Nat
  result : Int
deriving Repr, DecidableEq

/-- Struct `struct mgpu_queue`: `pending` holds the four priority buckets, index =
priority (0 = low … 3 = realtime), FIFO within a bucket. -/
structure MgpuQueue where
  queue_id : Nat
  queue_depth : Nat
  pending_starts : Nat
  pending : List (List MgpuJob)
  current_job : Option MgpuJob
  jobs_submitted : Nat
deriving Repr, DecidableEq

/-- The slice of `struct mgpu_scheduler` that job submission touches. -/
structure MgpuScheduler where
  queues : List MgpuQueue
  num_queues : Nat
  total_jobs : Nat
deriving Repr, DecidableEq

/-- Function `mgpu_job_is_ready`: no unsatisfied dependencies AND state is
`MGPU_JOB_PENDING`. -/
def mgpu_job_is_ready (job : MgpuJob) : Bool :=
  job.dep_count == 0 && job.state == JobState.pending

/-- Function `mgpu_queue_create(sched, queue_id)`: empty buckets, depth 16 (the
hardware `QUEUE_DEPTH` parameter). -/
def mgpu_queue_create (queue_id : Nat) : MgpuQueue :=
  { queue_id := queue_id, queue_depth := 16, pending_starts := 0,
    pending := [[], [], [], []], current_job := none, jobs_submitted := 0 }

/-- Function `mgpu_queue_submit_job(queue, job)`: refuse with `-EBUSY` when
`pending_starts ≥ queue_depth`; otherwise mark the job running, point
`current_job` at it and hand it to `mgpu_submit_commands` (outcome `ringRet`).
On ring failure the job is aborted and `current_job` cleared; on success
`pending_starts` and `jobs_submitted` are bumped.  Returns the code, the
queue and the job as left behind. -/
def mgpu_queue_submit_job (queue : MgpuQueue) (job : MgpuJob) (ringRet : Int) :
    Int × MgpuQueue × MgpuJob :=
  if queue.queue_depth ≤ queue.pending_starts then (-16, queue, job)
  else
    let job := { job with state := JobState.running }
    let queue := { queue with current_job := some job }
    if ringRet ≠ 0 then
      (ringRet, { queue with current_job := none },
       { job with state := JobState.aborted })
    else
      (0, { queue with pending_starts := queue.pending_starts + 1,
                       jobs_submitted := queue.jobs_submitted + 1 }, job)

/-- The `list_for_each_entry_safe` scan of one bucket in
`mgpu_sched_process_queue`: first job with `mgpu_job_is_ready`, and the
bucket with that job removed (`list_del`). -/
def findFirstReady : List MgpuJob → Option (MgpuJob × List MgpuJob)
  | [] => none
  | j :: rest =>
    if mgpu_job_is_ready j then some (j, rest)
    else
      match findFirstReady rest with
      | some (r, rest') => some (r, j :: rest')
      | none => none

/-- The priority loop of `mgpu_sched_process_queue`, from priority `p - 1`
downwards (called with `p = 4`, i.e. realtime first).  When a ready job is
found it is removed from its bucket and submitted; on submission failure it
is re-inserted at the head of the bucket (`list_add`); either way the pass
returns. -/
def scanBuckets (ringRet : Int) : Nat → MgpuQueue → MgpuQueue
  | 0, queue => queue
  | p + 1, queue =>
    match findFirstReady (queue.pending.getD p []) with
    | none => scanBuckets ringRet p queue
    | some (job, rest) =>
      let queue := { queue with pending := queue.pending.set p rest }
      let r := mgpu_queue_submit_job queue job ringRet
      if r.1 = 0 then r.2.1
      else
        { r.2.1 with pending := r.2.1.pending.set p (r.2.2 :: rest) }

/-- Function `mgpu_sched_process_queue(sched, queue_id)` restricted to the queue it
operates on: nothing to do while `current_job` is occupied or the queue is at
its admission limit; otherwise scan the buckets from realtime down to low. -/
def mgpu_sched_process_queue (queue : MgpuQueue) (ringRet : Int) : MgpuQueue :=
  if queue.current_job.isSome || queue.queue_depth ≤ queue.pending_starts then
    queue
  else scanBuckets ringRet 4 queue

/-- Queue auto-selection in `mgpu_sched_submit_job` when `job->queue_id` is
out of range: compute prefers queue 1, DMA queue 2, everything else queue 0,
falling back to 0 when the higher queue is absent. -/
def autoSelectQueue (numQueues : Nat) (ty : JobType) : Nat :=
  match ty with
  | JobType.compute => if 1 < numQueues then 1 else 0
  | JobType.dma => if 2 < numQueues then 2 else 0
  | _ => 0

/-- Function `mgpu_sched_submit_job(sched, job)`: validate, pick the queue, append the
job to the bucket of its priority and set its state to `MGPU_JOB_QUEUED`. -/
def mgpu_sched_submit_job (sched : MgpuScheduler) (job : MgpuJob) :
    Except Int MgpuScheduler :=
  if job.commands.isEmpty ∨ job.cmd_size = 0 then Except.error (-22)
  else
    let job :=
      if sched.num_queues ≤ job.queue_id then
        { job with queue_id := autoSelectQueue sched.num_queues job.type }
      else job
    match sched.queues.get? job.queue_id with
    | none => Except.error (-22)
    | some queue =>
      let job := { job with state := JobState.queued }
      let queue := { queue with
        pending := queue.pending.set job.priority
          (queue.pending.getD job.priority [] ++ [job]) }
      Except.ok { sched with
        queues := sched.queues.set job.queue_id queue,
        total_jobs := sched.total_jobs + 1 }

/-- Function `mgpu_sched_wait_job(job, timeout_ms)`: the outcome of
`wait_for_completion_timeout` is `waitRet` (0 = timed out, negative =
interrupted, positive = completed with that much budget left).  On timeout
the job's state is overwritten with `MGPU_JOB_TIMEOUT` and `-ETIMEDOUT` is
returned; otherwise the job is untouched. -/
def mgpu_sched_wait_job (job : MgpuJob) (waitRet : Int) : MgpuJob × Int :=
  if waitRet = 0 then ({ job with state := JobState.timeout }, -110)
  else if waitRet < 0 then (job, waitRet)
  else (job, job.result)

/-! Section: Fence engine (`mgpu_fence.c`) -/

def PAGE_SIZE : Nat := 4096

/-- Struct `struct mgpu_fence_context`: one coherent page of 32-bit fence cells at
DMA address `dma_addr` (`page` lists the cell values, index = dword offset),
and the atomic sequence counter. -/
structure FenceCtx where
  dma_addr : Nat
  page : List Nat
  seqno : Nat
deriving Repr, DecidableEq

/-- Function `mgpu_fence_init(mdev)`: allocates and zeroes the fence page at some DMA
address, programs `FENCE_ADDR`, and sets the sequence counter to 0. -/
def mgpu_fence_init (dma_addr : Nat) : FenceCtx :=
  { dma_addr := dma_addr, page := List.replicate (PAGE_SIZE / 4) 0, seqno := 0 }

/-- Function `mgpu_fence_next(mdev)`: `atomic_inc_return(&ctx->seqno)` — the counter
is a 32-bit atomic, so it wraps modulo `2^32`; the incremented value is
returned. -/
def mgpu_fence_next (ctx : FenceCtx) : FenceCtx × Nat :=
  let s := (ctx.seqno + 1) % U32_MOD
  ({ ctx with seqno := s }, s)

/-- The fence context after `k` calls of `mgpu_fence_next`. -/
def fenceCtxAfter (ctx : FenceCtx) : Nat → FenceCtx
  | 0 => ctx
  | k + 1 => (mgpu_fence_next (fenceCtxAfter ctx k)).1

/-- The value returned by call number `k` (`k ≥ 1`) of `mgpu_fence_next`
after initialization at `dma_addr`: the counter after that call. -/
def fenceNextReturn (dma_addr k : Nat) : Nat :=
  (fenceCtxAfter (mgpu_fence_init dma_addr) k).seqno

/-- Function `mgpu_fence_signaled(mdev, fence_addr, fence_value)`: an address outside
`[dma_addr, dma_addr + PAGE_SIZE)` is treated as signaled; inside, the cell
at dword offset `(fence_addr - dma_addr) / 4` is read and compared. -/
def mgpu_fence_signaled (ctx : FenceCtx) (fence_addr fence_value : Nat) : Bool :=
  if fence_addr < ctx.dma_addr ∨ ctx.dma_addr + PAGE_SIZE ≤ fence_addr then
    true
  else
    fence_value ≤ ctx.page.getD ((fence_addr - ctx.dma_addr) / 4) 0

/-- Struct `struct mgpu_wait_fence` (ioctl argument). -/
structure MgpuWaitFence where
  fence_addr : Nat
  fence_value : Nat
  timeout_ms : Nat
deriving Repr, DecidableEq

/-- Observable behaviour of one `mgpu_wait_fence` call: the `int` return
code, whether the caller enrolled a wait entry on `ctx->wait_list`, and the
timeout handed to `wait_event_interruptible_timeout` when it did enroll
(`none` models `MAX_SCHEDULE_TIMEOUT`, i.e. an indefinite sleep). -/
structure WaitFenceTrace where
  ret : Int
  enrolled : Bool
  timeout : Option Nat
deriving Repr, DecidableEq

/-- Kernel `msecs_to_jiffies` with `CONFIG_HZ = 1000` (one jiffy per millisecond). -/
def msecs_to_jiffies (ms : Nat) : Nat := ms

/-- Function `mgpu_wait_fence(mdev, args)`: fast path returns 0 immediately when the
fence is already signaled, before any wait-list enrollment; otherwise the
caller enrolls, sleeps with timeout `MAX_SCHEDULE_TIMEOUT` when
`args->timeout_ms == 0` and `msecs_to_jiffies(args->timeout_ms)` otherwise,
and maps the sleep outcome `sleepRet` (0 = timer expired, negative =
interrupted, positive = condition became true) to its return code. -/
def mgpu_wait_fence (ctx : FenceCtx) (args : MgpuWaitFence) (sleepRet : Int) :
    WaitFenceTrace :=
  if mgpu_fence_signaled ctx args.fence_addr args.fence_value then
    ⟨0, false, none⟩
  else
    let timeout : Option Nat :=
      if args.timeout_ms = 0 then none
      else some (msecs_to_jiffies args.timeout_ms)
    let ret : Int :=
      if sleepRet = 0 then -110
      else if sleepRet < 0 then sleepRet
      else 0
    ⟨ret, true, timeout⟩

/-! Section: Health monitor (`mgpu_health.c`, src/unnamed/part_004)

Device reads performed by the checks (the scratch read-back after the
heartbeat write, the status register, `CMD_HEAD`, `FENCE_VALUE`, and the
current jiffies value) are explicit inputs. -/

def MGPU_ERROR_THRESHOLD : Nat := 10
def MGPU_HEARTBEAT_TIMEOUT_MS : Nat := 5000

def MGPU_STATUS_BUSY : Nat := 2
def MGPU_STATUS_ERROR : Nat := 4
def MGPU_STATUS_HALTED : Nat := 8

/-- Struct `struct mgpu_health_monitor` (the fields the checks touch). -/
structure HealthMonitor where
  heartbeat_counter : Nat
  heartbeat_misses : Nat
  consecutive_errors : Nat
  error_count : Nat
  hang_count : Nat
  check_count : Nat
  recovery_count : Nat
  last_cmd_head : Nat
  last_fence_value : Nat
  last_activity : Nat
  last_heartbeat : Nat
deriving Repr, DecidableEq

/-- What the device presents to one `mgpu_health_check` run: `scratchRead` is
the value `mgpu_read(SCRATCH)` returns after the heartbeat write, `now` the
jiffies value. -/
structure HealthInputs where
  scratchRead : Nat
  status : Nat
  cmdHead : Nat
  fenceValue : Nat
  now : Nat
deriving Repr, DecidableEq

/-- Function `mgpu_health_check_heartbeat(monitor)`: increment the 32-bit heartbeat
counter, write it to `SCRATCH`, read back, bump `heartbeat_misses` on a
mismatch; returns `alive`. -/
def mgpu_health_check_heartbeat (m : HealthMonitor) (scratchRead now : Nat) :
    HealthMonitor × Bool :=
  let counter := (m.heartbeat_counter + 1) % U32_MOD
  let alive := scratchRead == counter
  ({ m with heartbeat_counter := counter,
            heartbeat_misses :=
              if alive then m.heartbeat_misses else m.heartbeat_misses + 1,
            last_heartbeat := now }, alive)

/-- Function `mgpu_get_error_info(code).recoverable`: codes 1–5 are the recoverable
table entries; everything else falls back to `NONE` (not recoverable). -/
def errorRecoverable (code : Nat) : Bool := 1 ≤ code && code ≤ 5

/-- Function `mgpu_health_check_errors(monitor)`: on `STATUS_ERROR` bump
`error_count`/`consecutive_errors` (the recoverable-error status write-back
only touches the device); otherwise reset `consecutive_errors`; `HALTED`
counts as one more error.  Returns the local `error_count`. -/
def mgpu_health_check_errors (m : HealthMonitor) (status : Nat) :
    HealthMonitor × Nat :=
  let r :=
    if status &&& MGPU_STATUS_ERROR ≠ 0 then
      ({ m with error_count := m.error_count + 1,
                consecutive_errors := m.consecutive_errors + 1 }, 1)
    else ({ m with consecutive_errors := 0 }, 0)
  if status &&& MGPU_STATUS_HALTED ≠ 0 then (r.1, r.2 + 1) else r

/-- Kernel `time_after(a, b)`. -/
def time_after (a b : Nat) : Bool := b < a

/-- Function `mgpu_health_check_hang(monitor)`: only meaningful while `STATUS_BUSY`;
a stalled `CMD_HEAD` or a stalled `FENCE_VALUE` for longer than the 5 s
budget past `last_activity` declares a hang; progress on either refreshes
the respective `last_*` value and `last_activity`. -/
def mgpu_health_check_hang (m : HealthMonitor) (status cmdHead fenceValue now : Nat) :
    HealthMonitor × Bool :=
  if status &&& MGPU_STATUS_BUSY = 0 then (m, false)
  else
    let r1 :=
      if cmdHead == m.last_cmd_head then
        (m, time_after now (m.last_activity + msecs_to_jiffies MGPU_HEARTBEAT_TIMEOUT_MS))
      else ({ m with last_cmd_head := cmdHead, last_activity := now }, false)
    let r2 :=
      if fenceValue == r1.1.last_fence_value then
        (r1.1, r1.2 || time_after now
          (r1.1.last_activity + msecs_to_jiffies MGPU_HEARTBEAT_TIMEOUT_MS))
      else ({ r1.1 with last_fence_value := fenceValue, last_activity := now }, r1.2)
    if r2.2 then ({ r2.1 with hang_count := r2.1.hang_count + 1 }, true)
    else (r2.1, false)

/-- Function `mgpu_health_check(monitor)`: run the heartbeat, error and hang checks in
order; `needs_reset` is set by a failed heartbeat, by errors at or past the
consecutive-error threshold, or by a hang; when set, `recovery_count` is
bumped and `mgpu_reset_schedule` is called (the Boolean result). -/
def mgpu_health_check (m : HealthMonitor) (inp : HealthInputs) :
    HealthMonitor × Bool :=
  let m := { m with check_count := m.check_count + 1 }
  let hb := mgpu_health_check_heartbeat m inp.scratchRead inp.now
  let needs1 := !hb.2
  let er := mgpu_health_check_errors hb.1 inp.status
  let needs2 := needs1 ||
    (0 < er.2 && MGPU_ERROR_THRESHOLD ≤ er.1.consecutive_errors)
  let hg := mgpu_health_check_hang er.1 inp.status inp.cmdHead inp.fenceValue inp.now
  let needs := needs2 || hg.2
  if needs then
    ({ hg.1 with recovery_count := hg.1.recovery_count + 1 }, true)
  else (hg.1, false)

/-! Section: Reset engine (`mgpu_reset.c`, src/unnamed/part_007)

`reset_count` and `in_reset` are the atomics of `struct mgpu_device`;
`work_queued` models the delayed-work queue (a work item is pending at most
once — `schedule_delayed_work` on an already-pending item is a no-op);
`cycles_run` counts completed executions of `mgpu_reset_work`. -/

structure ResetState where
  in_reset : Bool
  reset_count : Nat
  work_queued : Nat
  cycles_run : Nat
deriving Repr, DecidableEq

/-- Kernel `schedule_delayed_work(&mdev->reset_work, 0)`: queues the work unless it
is already pending. -/
def schedule_reset_work (s : ResetState) : ResetState :=
  if 1 ≤ s.work_queued then s else { s with work_queued := s.work_queued + 1 }

/-- Function `mgpu_reset_schedule(mdev)`: a no-op while a reset is in progress;
otherwise increments `reset_count` and schedules the reset work. -/
def mgpu_reset_schedule (s : ResetState) : ResetState :=
  if s.in_reset then s
  else schedule_reset_work { s with reset_count := s.reset_count + 1 }

/-- One execution of `mgpu_reset_work` (it runs only when a work item is
pending): sets `in_reset`, quiesces, resets and re-initializes the hardware,
then clears `in_reset` and wakes the waiters.  Only the state tracked here is
affected; the completed execution is counted in `cycles_run`. -/
def mgpu_reset_work_run (s : ResetState) : ResetState :=
  if s.work_queued = 0 then s
  else { s with work_queued := s.work_queued - 1, in_reset := false,
                cycles_run := s.cycles_run + 1 }

/-! Section: Command validator (user-API file, second half of mgpu_mmio.h blob)

A command stream is a list of dwords.  The header bitfield
`{opcode:8, size:8, flags:16}` packs as `(flags<<16)|(size<<8)|opcode`. -/

def MGPU_CMD_NOP : Nat := 0
def MGPU_CMD_DRAW : Nat := 1
def MGPU_CMD_COMPUTE : Nat := 2
def MGPU_CMD_DMA : Nat := 3
def MGPU_CMD_FENCE : Nat := 4
def MGPU_CMD_WAIT : Nat := 5
def MGPU_CMD_REG_WRITE : Nat := 6
def MGPU_CMD_REG_READ : Nat := 7

/-- Header field `hdr->opcode`: low byte of the header dword. -/
def hdrOpcode (w : Nat) : Nat := w % 256

/-- Header field `hdr->size`: second byte of the header dword (size in dwords,
header included). -/
def hdrSize (w : Nat) : Nat := w / 256 % 256

/-- One row of the `cmd_validators[]` table. -/
structure CmdValidator where
  opcode : Nat
  min_size : Nat
  max_size : Nat
  privileged : Bool
deriving Repr, DecidableEq

/-- The `cmd_validators[]` table, row for row. -/
def cmd_validators : List CmdValidator :=
  [⟨MGPU_CMD_NOP, 1, 1, false⟩,
   ⟨MGPU_CMD_DRAW, 5, 8, false⟩,
   ⟨MGPU_CMD_COMPUTE, 4, 8, false⟩,
   ⟨MGPU_CMD_DMA, 4, 5, false⟩,
   ⟨MGPU_CMD_FENCE, 3, 3, false⟩,
   ⟨MGPU_CMD_WAIT, 2, 3, false⟩,
   ⟨MGPU_CMD_REG_WRITE, 3, 3, true⟩,
   ⟨MGPU_CMD_REG_READ, 2, 3, true⟩]

/-- The table-lookup loop at the top of the validation loop. -/
def findValidator (opcode : Nat) : Option CmdValidator :=
  cmd_validators.find? (fun v => v.opcode == opcode)

/-- The `validate` callbacks of the table (`mgpu_validate_draw_cmd`,
`mgpu_validate_dma_cmd`, `mgpu_validate_fence_cmd`; the other opcodes have
none).  `record` is the command's dwords, header first; `vertexBase` is the
current value of the `VERTEX_BASE` register, which the DRAW validator reads. -/
def extraValidate (vertexBase opcode : Nat) (record : List Nat) : Int :=
  if opcode = MGPU_CMD_DRAW then
    let vertex_count := record.getD 1 0
    let instance_count := record.getD 2 0
    if vertex_count = 0 ∨ 65536 < vertex_count then -22
    else if instance_count = 0 then -22
    else if vertexBase = 0 then -22
    else 0
  else if opcode = MGPU_CMD_DMA then
    let src_addr := record.getD 1 0
    let dst_addr := record.getD 2 0
    let size := record.getD 3 0
    if size = 0 ∨ 16777216 < size then -22
    else if src_addr &&& 3 ≠ 0 ∨ dst_addr &&& 3 ≠ 0 ∨ size &&& 3 ≠ 0 then -22
    else 0
  else if opcode = MGPU_CMD_FENCE then
    if record.getD 1 0 &&& 3 ≠ 0 then -22 else 0
  else 0

/-- The validation loop of `mgpu_validate_commands`.  `fuel` bounds the
number of records (the caller passes the dword count, which suffices because
every accepted record consumes at least one dword); the fuel-exhaustion
branch is unreachable from `mgpu_validate_commands`.  On success the
possibly-rewritten stream is returned (privileged records have their opcode
byte overwritten with `MGPU_CMD_NOP`). -/
def validateGo (vertexBase : Nat) : Nat → List Nat → Except Int (List Nat)
  | _, [] => Except.ok []
  | 0, _ :: _ => Except.error (-22)
  | fuel + 1, w :: rest =>
    match findValidator (hdrOpcode w) with
    | none => Except.error (-22)
    | some v =>
      let cmd_size := hdrSize w
      if cmd_size < v.min_size ∨ v.max_size < cmd_size then Except.error (-22)
      else if rest.length + 1 < cmd_size then Except.error (-22)
      else
        let record := w :: rest.take (cmd_size - 1)
        let vret := extraValidate vertexBase (hdrOpcode w) record
        if vret ≠ 0 then Except.error vret
        else
          let w' := if v.privileged then w / 256 * 256 else w
          match validateGo vertexBase fuel (rest.drop (cmd_size - 1)) with
          | Except.ok outRest =>
            Except.ok ((w' :: rest.take (cmd_size - 1)) ++ outRest)
          | Except.error e => Except.error e

/-- Function `mgpu_validate_commands(mdev, cmds, size_bytes)` on the dword list the
kernel copy holds (`size_bytes / 4` dwords). -/
def mgpu_validate_commands (vertexBase : Nat) (cmds : List Nat) :
    Except Int (List Nat) :=
  validateGo vertexBase cmds.length cmds

/-- The size discipline the validation loop enforces, on its own: walking the
stream record by record, every record must name a known opcode, declare a
size within its table row's `[min_size, max_size]`, and fit in the remaining
payload. -/
def sizeGo : Nat → List Nat → Bool
  | _, [] => true
  | 0, _ :: _ => false
  | fuel + 1, w :: rest =>
    match findValidator (hdrOpcode w) with
    | none => false
    | some v =>
      let cmd_size := hdrSize w
      if cmd_size < v.min_size ∨ v.max_size < cmd_size then false
      else if rest.length + 1 < cmd_size then false
      else sizeGo fuel (rest.drop (cmd_size - 1))

/-- Every record of the stream passes the size checks of the validator table. -/
def cmdSizesOk (cmds : List Nat) : Bool := sizeGo cmds.length cmds

/-- Whether validation accepted the stream. -/
def exceptIsOk : Except Int (List Nat) → Bool
  | Except.ok _ => true
  | Except.error _ => false

/-! Section: Concrete states used by the theorems below -/

/-- The freshly created 4096-byte ring for queue 0: 1024 dwords, head and
tail both 0. -/
def ring4096 : MgpuRing :=
  { sizeBytes := 4096, queueId := 0, tail := 0,
    buf := List.replicate 1024 0, submitted_cmds := 0 }

/-- A fresh scheduler holding the single queue 0. -/
def sched0 : MgpuScheduler :=
  { queues := [mgpu_queue_create 0], num_queues := 1, total_jobs := 0 }

/-- A job exactly as `mgpu_job_alloc` plus the `mgpu_sched_submit` field
setup leave it when it reaches `mgpu_sched_submit_job`: state
`MGPU_JOB_PENDING`, no unsatisfied dependencies, one NOP dword. -/
def readyJob : MgpuJob :=
  { job_id := 1, type := JobType.draw, priority := 1, state := JobState.pending,
    commands := [256], cmd_size := 4, queue_id := 0, fence_addr := 0,
    fence_value := 0, timeout_ms := 10000, dep_count := 0, result := 0 }

/-- Job `readyJob` as `mgpu_sched_submit_job` stores it in its bucket. -/
def queuedJob : MgpuJob := { readyJob with state := JobState.queued }

/-- Queue 0 after `mgpu_sched_submit_job sched0 readyJob`. -/
def q1 : MgpuQueue :=
  { mgpu_queue_create 0 with pending := [[], [queuedJob], [], []] }

/-- The scheduler after `mgpu_sched_submit_job sched0 readyJob`. -/
def sched1 : MgpuScheduler := { queues := [q1], num_queues := 1, total_jobs := 1 }

/-- The same queue but holding the job with its allocation-time state
`MGPU_JOB_PENDING` (what the selection logic tests for). -/
def qPend : MgpuQueue :=
  { mgpu_queue_create 0 with pending := [[], [readyJob], [], []] }

/-- Job `readyJob` marked running. -/
def runningJob : MgpuJob := { readyJob with state := JobState.running }

/-- All-zero health-monitor state, as `mgpu_health_init` allocates it. -/
def monitor0 : HealthMonitor := ⟨0, 0, 0, 0, 0, 0, 0, 0, 0, 0, 0⟩

/-- A monitor that has already recorded five heartbeat misses. -/
def monitor5 : HealthMonitor := { monitor0 with heartbeat_misses := 5 }

/-- Reset state as `mgpu_reset_init` leaves it. -/
def reset0 : ResetState := ⟨false, 0, 0, 0⟩

/-! Section: Theorems -/

/-- Writing one NOP dword advances the tail by one (below the wrap point)
and preserves the ring size. -/
theorem ring_write_nop_tail (r : MgpuRing) (h1 : r.sizeBytes = 4096)
    (h2 : r.tail + 1 ≤ 1023) :
    (mgpu_ring_write r [256]).sizeBytes = 4096 ∧
    (mgpu_ring_write r [256]).tail = r.tail + 1 := by
  refine ⟨h1, ?_⟩
  show (ringWriteGo (r.sizeBytes / 4) r.buf r.tail [256]).2 = r.tail + 1
  rw [h1]
  show (r.tail + 1) &&& (4096 / 4 - 1) = r.tail + 1
  have h10 : (4096 / 4 - 1 : Nat) = 2 ^ 10 - 1 := by norm_num
  rw [h10, Nat.and_pow_two_sub_one_eq_mod]
  exact Nat.mod_eq_of_lt (by omega)

/-- After `k` one-dword NOP submissions (no wrap), the tail has advanced by
`k` and the ring size is unchanged. -/
theorem iterNopWrite_tail :
    ∀ (k : Nat) (r : MgpuRing), r.sizeBytes = 4096 → r.tail + k ≤ 1023 →
      (iterNopWrite k r).sizeBytes = 4096 ∧ (iterNopWrite k r).tail = r.tail + k := by
  intro k
  induction k with
  | zero => exact fun r h1 _ => ⟨h1, rfl⟩
  | succ n ih =>
    intro r h1 h2
    have hw := ring_write_nop_tail r h1 (by omega)
    have hr := ih (mgpu_ring_write r [256]) hw.1 (by omega)
    refine ⟨hr.1, ?_⟩
    show (iterNopWrite n (mgpu_ring_write r [256])).tail = r.tail + (n + 1)
    rw [hr.2, hw.2]
    omega

set_option maxRecDepth 4000 in
/-- C1: for every command ring, the dword-counting definition of
`mgpu_ring_space` returns the available space under the reserved-slot
convention — `size/4 - (tail - head) - 1` when `head ≤ tail`, else
`head - tail - 1` — with a fresh 4096-byte ring reporting 1023 free dwords
and 0 after 1023 one-dword commands.  The first `mgpu_ring_space` definition
in the same file instead mixes units and reports 4095 on the fresh ring. -/
theorem ring_space_unit_mismatch_and_dword_accounting :
    mgpu_ring_create 4096 0 = some ring4096 ∧
    mgpu_ring_space 0 ring4096 = 4095 ∧
    mgpu_ring_space_dw 0 ring4096 = 1023 ∧
    (∀ head ring, ring.sizeBytes ≤ MGPU_RING_SIZE_MAX →
      head < ring.sizeBytes / 4 → ring.tail < ring.sizeBytes / 4 →
      mgpu_ring_space_dw head ring =
        if head ≤ ring.tail then ring.sizeBytes / 4 - (ring.tail - head) - 1
        else head - ring.tail - 1) ∧
    (iterNopWrite 1023 ring4096).tail = 1023 ∧
    mgpu_ring_space_dw 0 (iterNopWrite 1023 ring4096) = 0 := by
  have hfull := iterNopWrite_tail 1023 ring4096 rfl (by decide)
  have htl : (iterNopWrite 1023 ring4096).tail = 1023 := hfull.2
  have hformula : ∀ head ring, ring.sizeBytes ≤ MGPU_RING_SIZE_MAX →
      head < ring.sizeBytes / 4 → ring.tail < ring.sizeBytes / 4 →
      mgpu_ring_space_dw head ring =
        if head ≤ ring.tail then ring.sizeBytes / 4 - (ring.tail - head) - 1
        else head - ring.tail - 1 := by
    intro head ring hsz hh ht
    have hN : ring.sizeBytes / 4 < U32_MOD := by
      unfold MGPU_RING_SIZE_MAX at hsz
      unfold U32_MOD
      omega
    unfold mgpu_ring_space_dw
    by_cases hle : head ≤ ring.tail
    · rw [if_pos hle, if_pos hle,
          u32sub_eq_sub hle (lt_trans ht hN),
          u32sub_eq_sub (by omega) hN,
          u32sub_eq_sub (by omega) (by omega)]
    · have hlt : ring.tail < head := Nat.not_le.mp hle
      rw [if_neg hle, if_neg hle,
          u32sub_eq_sub (Nat.le_of_lt hlt) (lt_trans hh hN),
          u32sub_eq_sub (by omega) (by omega)]
  refine ⟨rfl, by decide, by decide, hformula, htl, ?_⟩
  unfold mgpu_ring_space_dw
  rw [htl, hfull.1]
  decide

/-- Witness for the quantified conjunct of the C1 theorem, at a 4096-byte
ring with `tail = 3` and `head = 7`. -/
theorem ring_space_dword_accounting_witness :
    mgpu_ring_space_dw 7
      { sizeBytes := 4096, queueId := 0, tail := 3, buf := [],
        submitted_cmds := 0 } = 3 := by
  have h := ring_space_unit_mismatch_and_dword_accounting.2.2.2.1 7
    { sizeBytes := 4096, queueId := 0, tail := 3, buf := [],
      submitted_cmds := 0 } (by decide) (by decide) (by decide)
  rw [h]
  decide

/-- C2: a ready job (`dep_count = 0`) handed to `mgpu_sched_submit_job` is
stored with state `MGPU_JOB_QUEUED`, but `mgpu_job_is_ready` — which
`mgpu_sched_process_queue` uses to select jobs — demands `MGPU_JOB_PENDING`,
so the scheduler pass leaves the queue untouched and never starts the job.
Had the bucket held the job with its pre-submission `pending` state, the
same pass would select it, mark it running and submit it. -/
theorem sched_pass_never_selects_submitted_job :
    mgpu_sched_submit_job sched0 readyJob = Except.ok sched1 ∧
    q1.current_job = none ∧
    q1.pending_starts < q1.queue_depth ∧
    queuedJob.dep_count = 0 ∧
    mgpu_job_is_ready queuedJob = false ∧
    mgpu_sched_process_queue q1 0 = q1 ∧
    (mgpu_sched_process_queue qPend 0).current_job = some runningJob ∧
    (mgpu_sched_process_queue qPend 0).pending = [[], [], [], []] := by
  refine ⟨rfl, rfl, by decide, rfl, rfl, rfl, rfl, rfl⟩

/-- C3 counterexample: a running job whose waiter times out does NOT keep its
state — `mgpu_sched_wait_job` returns `-ETIMEDOUT` but overwrites the state
with `MGPU_JOB_TIMEOUT`. -/
theorem wait_job_timeout_changes_state_cex :
    runningJob.state = JobState.running ∧
    (mgpu_sched_wait_job runningJob 0).2 = -110 ∧
    (mgpu_sched_wait_job runningJob 0).1.state = JobState.timeout := by
  decide

/-- C3 amended: when `mgpu_sched_wait_job` times out waiting on the job's
completion latch it returns Timeout and sets the job's state to timed_out
(in particular a still-running job is marked timed_out by the waiter). -/
theorem wait_job_timeout_returns_timeout_and_marks_job (job : MgpuJob) :
    mgpu_sched_wait_job job 0 =
      ({ job with state := JobState.timeout }, -110) := by
  unfold mgpu_sched_wait_job
  simp

/-- The error check never touches the heartbeat-miss counter. -/
theorem health_errors_preserve_misses (m : HealthMonitor) (status : Nat) :
    (mgpu_health_check_errors m status).1.heartbeat_misses =
      m.heartbeat_misses := by
  unfold mgpu_health_check_errors
  dsimp only
  split <;> split <;> rfl

/-- The hang check never touches the heartbeat-miss counter. -/
theorem health_hang_preserves_misses (m : HealthMonitor)
    (status cmdHead fenceValue now : Nat) :
    (mgpu_health_check_hang m status cmdHead fenceValue now).1.heartbeat_misses =
      m.heartbeat_misses := by
  unfold mgpu_health_check_hang
  dsimp only
  split
  · rfl
  · split <;> split <;> split <;> rfl

/-- C4 counterexample: on the very first heartbeat mismatch (miss counter 1,
far below any threshold) `mgpu_health_check` already schedules a reset. -/
theorem health_first_miss_schedules_reset_cex :
    (mgpu_health_check monitor0 ⟨0, 0, 0, 0, 0⟩).1.heartbeat_misses = 1 ∧
    (mgpu_health_check monitor0 ⟨0, 0, 0, 0, 0⟩).1.heartbeat_misses <
      MGPU_ERROR_THRESHOLD ∧
    (mgpu_health_check monitor0 ⟨0, 0, 0, 0, 0⟩).2 = true := by
  decide

/-- C4 amended: a heartbeat read-back mismatch increments the miss counter by
one AND immediately makes the health check schedule a reset — there is no
consecutive-miss threshold for heartbeat failures (the
`MGPU_ERROR_THRESHOLD` applies only to `STATUS_ERROR` observations). -/
theorem health_miss_increments_and_schedules_reset
    (m : HealthMonitor) (inp : HealthInputs)
    (hmiss : inp.scratchRead ≠ (m.heartbeat_counter + 1) % U32_MOD) :
    (mgpu_health_check m inp).1.heartbeat_misses = m.heartbeat_misses + 1 ∧
    (mgpu_health_check m inp).2 = true := by
  have hbeq : (inp.scratchRead ==
      (m.heartbeat_counter + 1) % U32_MOD) = false := by
    simpa using hmiss
  constructor <;>
    simp [mgpu_health_check, mgpu_health_check_heartbeat, hbeq,
          health_hang_preserves_misses, health_errors_preserve_misses]

/-- Witness for the C4 amended theorem: a monitor with five recorded misses
and a wrong read-back gets its counter bumped to six and a reset scheduled. -/
theorem health_miss_increments_witness :
    (mgpu_health_check monitor5 ⟨99, 0, 0, 0, 0⟩).1.heartbeat_misses =
      monitor5.heartbeat_misses + 1 ∧
    (mgpu_health_check monitor5 ⟨99, 0, 0, 0, 0⟩).2 = true :=
  health_miss_increments_and_schedules_reset monitor5 ⟨99, 0, 0, 0, 0⟩
    (by decide)

/-- The per-opcode extra validators return either 0 or `-EINVAL`. -/
theorem extraValidate_zero_or_einval (vb op : Nat) (rec' : List Nat) :
    extraValidate vb op rec' = 0 ∨ extraValidate vb op rec' = -22 := by
  unfold extraValidate
  dsimp only
  split_ifs <;> tauto

/-- A stream the validation loop accepts passes the size discipline at every
record. -/
theorem validateGo_ok_sizeGo :
    ∀ (fuel : Nat) (l : List Nat) (vb : Nat) (out : List Nat),
      validateGo vb fuel l = Except.ok out → sizeGo fuel l = true := by
  intro fuel
  induction fuel with
  | zero =>
    intro l vb out h
    cases l with
    | nil => rfl
    | cons w rest => simp [validateGo] at h
  | succ n ih =>
    intro l vb out h
    cases l with
    | nil => rfl
    | cons w rest =>
      simp only [validateGo] at h
      simp only [sizeGo]
      cases hfv : findValidator (hdrOpcode w) with
      | none => rw [hfv] at h; simp at h
      | some v =>
        rw [hfv] at h
        dsimp only at h ⊢
        split at h
        · simp at h
        · split at h
          · simp at h
          · rename_i hc1 hc2
            rw [if_neg hc1, if_neg hc2]
            split at h
            · simp at h
            · split at h
              · rename_i outRest hrec
                exact ih _ vb outRest hrec
              · simp at h

/-- Every rejection of the validation loop carries `-EINVAL`. -/
theorem validateGo_error_einval :
    ∀ (fuel : Nat) (l : List Nat) (vb : Nat) (e : Int),
      validateGo vb fuel l = Except.error e → e = -22 := by
  intro fuel
  induction fuel with
  | zero =>
    intro l vb e h
    cases l with
    | nil => simp [validateGo] at h
    | cons w rest =>
      simp only [validateGo, Except.error.injEq] at h
      omega
  | succ n ih =>
    intro l vb e h
    cases l with
    | nil => simp [validateGo] at h
    | cons w rest =>
      simp only [validateGo] at h
      cases hfv : findValidator (hdrOpcode w) with
      | none => rw [hfv] at h; simp at h; omega
      | some v =>
        rw [hfv] at h
        dsimp only at h
        split at h
        · simp at h; omega
        · split at h
          · simp at h; omega
          · split at h
            · rename_i hvret
              simp only [Except.error.injEq] at h
              rcases extraValidate_zero_or_einval vb (hdrOpcode w)
                (w :: rest.take (hdrSize w - 1)) with h0 | h22
              · exact absurd h0 hvret
              · omega
            · split at h
              · simp at h
              · rename_i e2 hrec
                simp only [Except.error.injEq] at h
                have := ih _ vb e2 hrec
                omega

/-- C5 counterexample: the validator accepts a REG_READ record whose declared
size is 2 dwords (rewriting its opcode byte to NOP), although the §4.G table
demands exactly 3. -/
theorem validator_accepts_two_dword_reg_read_cex :
    hdrOpcode 519 = MGPU_CMD_REG_READ ∧ hdrSize 519 = 2 ∧
    mgpu_validate_commands 0 [519, 0] = Except.ok [512, 0] := by
  exact ⟨by decide, by decide, rfl⟩

/-- C5 amended: the validator accepts a record only if its declared size lies
within its row of the code's `cmd_validators` table — identical to the §4.G
table except that REG_READ's minimum size is 2, not 3 — and fits the
remaining payload; a stream violating the size discipline is rejected with
`-EINVAL`; in particular a lone REG_READ record is accepted exactly when its
declared size is 2 or 3. -/
theorem validator_size_discipline :
    (∀ vb cmds out, mgpu_validate_commands vb cmds = Except.ok out →
      cmdSizesOk cmds = true) ∧
    (∀ vb cmds, cmdSizesOk cmds = false →
      mgpu_validate_commands vb cmds = Except.error (-22)) ∧
    (∀ s, 1 ≤ s → s ≤ 8 →
      (exceptIsOk (mgpu_validate_commands 0
          ((s * 256 + MGPU_CMD_REG_READ) :: List.replicate (s - 1) 0)) = true
        ↔ (s = 2 ∨ s = 3))) := by
  refine ⟨?_, ?_, ?_⟩
  · intro vb cmds out h
    exact validateGo_ok_sizeGo cmds.length cmds vb out h
  · intro vb cmds h
    unfold cmdSizesOk at h
    cases heq : mgpu_validate_commands vb cmds with
    | ok out =>
      have := validateGo_ok_sizeGo cmds.length cmds vb out heq
      rw [this] at h
      simp at h
    | error e =>
      rw [validateGo_error_einval cmds.length cmds vb e heq]
  · intro s h1 h8
    interval_cases s <;> decide

/-- Witness for the C5 amended theorem: a three-dword REG_READ stream is
accepted, and an accepted NOP stream passes the size discipline. -/
theorem validator_size_discipline_witness :
    exceptIsOk (mgpu_validate_commands 0
      ((3 * 256 + MGPU_CMD_REG_READ) :: List.replicate (3 - 1) 0)) = true ∧
    cmdSizesOk [256] = true :=
  ⟨(validator_size_discipline.2.2 3 (by decide) (by decide)).mpr (by decide),
   validator_size_discipline.1 0 [256] [256] rfl⟩

/-- C6: for every address inside the fence page, `mgpu_fence_signaled`
returns true iff the 32-bit value stored in the cell at that address is at
least the expected value; every address outside the page is treated as
signaled. -/
theorem fence_signaled_spec (ctx : FenceCtx) (addr expected : Nat) :
    (ctx.dma_addr ≤ addr → addr < ctx.dma_addr + PAGE_SIZE →
      (mgpu_fence_signaled ctx addr expected = true ↔
        expected ≤ ctx.page.getD ((addr - ctx.dma_addr) / 4) 0)) ∧
    (addr < ctx.dma_addr ∨ ctx.dma_addr + PAGE_SIZE ≤ addr →
      mgpu_fence_signaled ctx addr expected = true) := by
  unfold mgpu_fence_signaled
  constructor
  · intro h1 h2
    rw [if_neg (by omega)]
    simp
  · intro h
    rw [if_pos h]

/-- Witness for C6: in a freshly initialized fence page at DMA address 4096,
the cell at 4104 (value 0) satisfies `expected = 0`, and the out-of-page
address 100 is treated as signaled. -/
theorem fence_signaled_spec_witness :
    mgpu_fence_signaled (mgpu_fence_init 4096) 4104 0 = true ∧
    mgpu_fence_signaled (mgpu_fence_init 4096) 100 7 = true :=
  ⟨((fence_signaled_spec (mgpu_fence_init 4096) 4104 0).1 (by decide)
      (by decide)).mpr (by decide),
   (fence_signaled_spec (mgpu_fence_init 4096) 100 7).2 (by decide)⟩

/-- The sequence counter after `k` calls of `mgpu_fence_next` is the initial
value plus `k`, modulo `2^32`. -/
theorem fenceCtxAfter_seqno (ctx : FenceCtx) (hs : ctx.seqno < U32_MOD) :
    ∀ k, (fenceCtxAfter ctx k).seqno = (ctx.seqno + k) % U32_MOD := by
  intro k
  induction k with
  | zero => simpa using (Nat.mod_eq_of_lt hs).symm
  | succ n ih =>
    show (mgpu_fence_next (fenceCtxAfter ctx n)).1.seqno = _
    unfold mgpu_fence_next
    dsimp only
    rw [ih]
    unfold U32_MOD
    omega

/-- The value returned by call number `k` of `mgpu_fence_next` is `k % 2^32`. -/
theorem fenceNextReturn_eq (dma k : Nat) : fenceNextReturn dma k = k % U32_MOD := by
  unfold fenceNextReturn
  have hs : (mgpu_fence_init dma).seqno = 0 := rfl
  rw [fenceCtxAfter_seqno (mgpu_fence_init dma) (by rw [hs]; decide) k, hs,
      Nat.zero_add]

/-- C7 counterexample: `mgpu_fence_next` increments a 32-bit counter, so call
number `2^32` returns 0 — neither nonzero nor greater than the previous
call's `2^32 - 1`. -/
theorem fence_next_wraps_to_zero_cex :
    fenceNextReturn 4096 4294967296 = 0 ∧
    fenceNextReturn 4096 4294967295 = 4294967295 ∧
    ¬ fenceNextReturn 4096 4294967295 < fenceNextReturn 4096 4294967296 := by
  have h1 : fenceNextReturn 4096 4294967296 = 0 := by
    rw [fenceNextReturn_eq]; decide
  have h2 : fenceNextReturn 4096 4294967295 = 4294967295 := by
    rw [fenceNextReturn_eq]; decide
  exact ⟨h1, h2, by omega⟩

/-- C7 amended: each of the first `2^32 - 1` calls of `mgpu_fence_next`
returns its call number — nonzero and strictly greater than every earlier
return value; the counter wraps at `2^32`. -/
theorem fence_next_monotone_nonzero_before_wrap (dma k : Nat)
    (h1 : 1 ≤ k) (h2 : k < U32_MOD) :
    fenceNextReturn dma k = k ∧ fenceNextReturn dma k ≠ 0 ∧
    (∀ j, 1 ≤ j → j < k → fenceNextReturn dma j < fenceNextReturn dma k) := by
  have e : fenceNextReturn dma k = k := by
    rw [fenceNextReturn_eq]
    exact Nat.mod_eq_of_lt h2
  refine ⟨e, by omega, ?_⟩
  intro j _ hjk
  rw [e, fenceNextReturn_eq, Nat.mod_eq_of_lt (by omega)]
  exact hjk

/-- Witness for the C7 amended theorem at call number 5. -/
theorem fence_next_monotone_witness :
    fenceNextReturn 0 5 = 5 ∧ fenceNextReturn 0 5 ≠ 0 ∧
    (∀ j, 1 ≤ j → j < 5 → fenceNextReturn 0 j < fenceNextReturn 0 5) :=
  fence_next_monotone_nonzero_before_wrap 0 5 (by decide) (by decide)

/-- C8: `mgpu_wait_fence` returns success immediately — without enrolling on
the wait list — whenever the fence is already signaled; and when it does have
to wait, a zero `timeout_ms` selects `MAX_SCHEDULE_TIMEOUT` (an indefinite
sleep), not an immediate poll. -/
theorem wait_fence_fast_path_and_indefinite_zero_timeout
    (ctx : FenceCtx) (args : MgpuWaitFence) (sleepRet : Int) :
    (mgpu_fence_signaled ctx args.fence_addr args.fence_value = true →
      mgpu_wait_fence ctx args sleepRet = ⟨0, false, none⟩) ∧
    (mgpu_fence_signaled ctx args.fence_addr args.fence_value = false →
      args.timeout_ms = 0 →
      (mgpu_wait_fence ctx args sleepRet).enrolled = true ∧
      (mgpu_wait_fence ctx args sleepRet).timeout = none) := by
  unfold mgpu_wait_fence
  constructor
  · intro h
    rw [if_pos h]
  · intro h h0
    rw [if_neg (by simp [h])]
    dsimp only
    rw [if_pos h0]
    exact ⟨rfl, rfl⟩

/-- Witness for C8: an already-signaled wait returns at once; an unsignaled
wait with `timeout_ms = 0` enrolls with an indefinite timeout. -/
theorem wait_fence_witness :
    mgpu_wait_fence (mgpu_fence_init 4096) ⟨4096, 0, 55⟩ 1 = ⟨0, false, none⟩ ∧
    (mgpu_wait_fence (mgpu_fence_init 4096) ⟨4096, 5, 0⟩ 0).enrolled = true ∧
    (mgpu_wait_fence (mgpu_fence_init 4096) ⟨4096, 5, 0⟩ 0).timeout = none := by
  refine ⟨?_, ?_⟩
  · exact (wait_fence_fast_path_and_indefinite_zero_timeout
      (mgpu_fence_init 4096) ⟨4096, 0, 55⟩ 1).1 (by decide)
  · exact (wait_fence_fast_path_and_indefinite_zero_timeout
      (mgpu_fence_init 4096) ⟨4096, 5, 0⟩ 0).2 (by decide) (by decide)

/-- C9 counterexample: from an idle reset state, two consecutive
`mgpu_reset_schedule` calls queue the reset work once (one reset cycle runs)
but increment the reset counter by two, not one. -/
theorem reset_double_schedule_double_counts_cex :
    (mgpu_reset_schedule (mgpu_reset_schedule reset0)).reset_count = 2 ∧
    (mgpu_reset_schedule (mgpu_reset_schedule reset0)).work_queued = 1 ∧
    (mgpu_reset_work_run (mgpu_reset_schedule
      (mgpu_reset_schedule reset0))).cycles_run = 1 := by
  decide

/-- C9 amended: `mgpu_reset_schedule` during an in-progress reset is a
complete no-op; two consecutive schedules issued outside a reset converge to
a single reset cycle (the work is queued once and runs once), but the reset
counter — which counts accepted schedule requests at schedule time, not
completed resets — increases by two, one per call. -/
theorem reset_schedule_idempotence (s : ResetState) :
    (s.in_reset = true → mgpu_reset_schedule s = s) ∧
    (s.in_reset = false → s.work_queued = 0 →
      mgpu_reset_schedule (mgpu_reset_schedule s) =
        { s with reset_count := s.reset_count + 2, work_queued := 1 } ∧
      mgpu_reset_work_run (mgpu_reset_schedule (mgpu_reset_schedule s)) =
        { s with reset_count := s.reset_count + 2, work_queued := 0,
                 cycles_run := s.cycles_run + 1 }) := by
  constructor
  · intro h
    unfold mgpu_reset_schedule
    rw [if_pos h]
  · intro h h0
    unfold mgpu_reset_schedule schedule_reset_work mgpu_reset_work_run
    simp [h, h0]

/-- Witness for C9: the no-op while in reset, and the double-count for
back-to-back schedules from an idle state. -/
theorem reset_schedule_idempotence_witness :
    mgpu_reset_schedule ⟨true, 3, 1, 0⟩ = ⟨true, 3, 1, 0⟩ ∧
    mgpu_reset_schedule (mgpu_reset_schedule ⟨false, 4, 0, 2⟩) =
      ⟨false, 4 + 2, 1, 2⟩ :=
  ⟨(reset_schedule_idempotence ⟨true, 3, 1, 0⟩).1 rfl,
   ((reset_schedule_idempotence ⟨false, 4, 0, 2⟩).2 rfl rfl).1⟩

/-- The locked part of `mgpu_submit_commands` always leaves `mdev->cmd_ring`
on the ring it was handed (same queue id), rings only that ring's doorbell,
and on the plain path (no flags, enough space) ends with exactly the write
plus kick of that ring. -/
theorem submitLocked_stays_on_ring (head : Nat) (ring : MgpuRing)
    (args : MgpuSubmit) :
    ((mgpu_submit_commands.mgpuSubmitLocked head ring args).dev.cmd_ring.map
        (fun r => r.queueId) = some ring.queueId) ∧
    (∀ q, (mgpu_submit_commands.mgpuSubmitLocked head ring args).doorbell
        = some q → q = ring.queueId) ∧
    (args.flags = 0 → args.cmd_size / 4 ≤ mgpu_ring_space_dw head ring →
      mgpu_submit_commands.mgpuSubmitLocked head ring args =
        ⟨0, ⟨some (mgpu_ring_kick (mgpu_ring_write ring
          (args.commands.take (args.cmd_size / 4)))).1⟩,
         some ring.queueId⟩) := by
  refine ⟨?_, ?_, ?_⟩
  · unfold mgpu_submit_commands.mgpuSubmitLocked
      mgpu_submit_commands.mgpuSubmitKick
    dsimp only
    split_ifs <;> simp [mgpu_ring_write, mgpu_ring_kick]
  · unfold mgpu_submit_commands.mgpuSubmitLocked
      mgpu_submit_commands.mgpuSubmitKick
    dsimp only
    split_ifs <;> simp [mgpu_ring_write, mgpu_ring_kick]
  · intro hf hsp
    have hws : mgpu_ring_wait_space head ring (args.cmd_size / 4) = 0 := by
      unfold mgpu_ring_wait_space
      rw [if_pos hsp]
    unfold mgpu_submit_commands.mgpuSubmitLocked
      mgpu_submit_commands.mgpuSubmitKick
    dsimp only
    rw [hws]
    simp [hf, mgpu_ring_kick, mgpu_ring_write]

/-- C10: `mgpu_submit_commands` routes every submission through the single
cached ring `mdev->cmd_ring`, regardless of `args->queue_id`: with a cached
ring present, the commands are written into that ring and its doorbell (not
the doorbell of `args->queue_id`) is rung; with no cached ring, the ring is
created for whichever queue id the submission carries; `mgpu_cmdq_init`
creates it for queue 0. -/
theorem submit_routes_to_cached_ring :
    (∀ head dev args ring, dev.cmd_ring = some ring → args.commands ≠ [] →
      args.cmd_size ≠ 0 → args.queue_id < MGPU_MAX_QUEUES →
      ((mgpu_submit_commands head dev args).dev.cmd_ring.map
          (fun r => r.queueId) = some ring.queueId ∧
       (∀ q, (mgpu_submit_commands head dev args).doorbell = some q →
          q = ring.queueId) ∧
       (args.flags = 0 → args.cmd_size / 4 ≤ mgpu_ring_space_dw head ring →
        (mgpu_submit_commands head dev args).dev.cmd_ring =
          some (mgpu_ring_kick (mgpu_ring_write ring
            (args.commands.take (args.cmd_size / 4)))).1))) ∧
    (∀ head args ring, args.commands ≠ [] → args.cmd_size ≠ 0 →
      args.queue_id < MGPU_MAX_QUEUES →
      (mgpu_submit_commands head ⟨none⟩ args).dev.cmd_ring = some ring →
      ring.queueId = args.queue_id) ∧
    mgpu_cmdq_init.map (fun d => d.cmd_ring.map (fun r => r.queueId))
      = some (some 0) := by
  have hreduce : ∀ head dev args, args.commands ≠ [] → args.cmd_size ≠ 0 →
      args.queue_id < MGPU_MAX_QUEUES →
      mgpu_submit_commands head dev args =
        (match dev.cmd_ring with
         | none =>
           (match mgpu_ring_create MGPU_RING_SIZE_MIN args.queue_id with
            | none => ⟨-12, dev, none⟩
            | some ring => mgpu_submit_commands.mgpuSubmitLocked head ring args)
         | some ring => mgpu_submit_commands.mgpuSubmitLocked head ring args) := by
    intro head dev args hc hs hq
    have hne : args.commands.isEmpty = false := by
      cases h : args.commands with
      | nil => exact absurd h hc
      | cons a t => rfl
    unfold mgpu_submit_commands
    rw [if_neg (by simp [hne, hs]), if_neg (Nat.not_le.mpr hq)]
  refine ⟨?_, ?_, rfl⟩
  · intro head dev args ring hr hc hs hq
    rw [hreduce head dev args hc hs hq, hr]
    dsimp only
    exact ⟨(submitLocked_stays_on_ring head ring args).1,
           (submitLocked_stays_on_ring head ring args).2.1,
           fun hf hsp => by
             rw [(submitLocked_stays_on_ring head ring args).2.2 hf hsp]⟩
  · intro head args ring hc hs hq hres
    rw [hreduce head ⟨none⟩ args hc hs hq] at hres
    dsimp only at hres
    have hcr : mgpu_ring_create MGPU_RING_SIZE_MIN args.queue_id =
        some { sizeBytes := 4096, queueId := args.queue_id, tail := 0,
               buf := List.replicate 1024 0, submitted_cmds := 0 } := rfl
    rw [hcr] at hres
    dsimp only at hres
    have h1 := (submitLocked_stays_on_ring head
      { sizeBytes := 4096, queueId := args.queue_id, tail := 0,
        buf := List.replicate 1024 0, submitted_cmds := 0 } args).1
    rw [hres] at h1
    simpa using h1

/-- Witness for C10: with the queue-0 ring cached, a submission targeted at
queue 5 still lands in the queue-0 ring. -/
theorem submit_routes_witness :
    ((mgpu_submit_commands 0 ⟨some ring4096⟩
        ⟨[256], 4, 5, 0, 0, 0⟩).dev.cmd_ring.map (fun r => r.queueId))
      = some ring4096.queueId :=
  (submit_routes_to_cached_ring.1 0 ⟨some ring4096⟩ ⟨[256], 4, 5, 0, 0, 0⟩
    ring4096 rfl (by decide) (by decide) (by decide)).1

end Mgpu
